import Mathlib

/-!
Verification development for the task-scheduling engine of the
winscp_tools repository (src/winscp_manager/scheduler.py).

Shallow embedding conventions:
* Timestamps (Python `datetime`) are modelled as `Nat` measured in seconds;
  `timedelta(minutes := m)` is `60 * m` seconds.  `datetime.now()` calls are
  modelled by explicit time parameters.  The two consecutive `datetime.now()`
  calls inside the success branch of `_execute_task` (lines 215 and 219) are
  modelled by one completion-time parameter.
* `Optional[datetime]` is `Option Nat`.
* The Python enums TaskType and TaskStatus are inductive types with their
  `.value` string representations.
* `ScheduledTask.to_dict` produces a `TaskDict`, the record shape written to
  the JSON tasks file.  `datetime.isoformat` / `datetime.fromisoformat`
  round-trip exactly, so a serialized timestamp is modelled by the timestamp
  value it denotes (with `Option` for the JSON null marker); the enum fields,
  whose string encoding is what `from_dict` actually parses and can reject,
  are kept as strings.
* The in-memory store `self.tasks : Dict[str, ScheduledTask]` is an
  insertion-ordered association list with unique keys, matching Python dict
  semantics.
* Fallible Python code (raised exceptions) is modelled with `Option` /
  explicit error components; `try/except` blocks that swallow exceptions
  become total functions that discard the error component.
-/

namespace WinscpScheduler

/-- Python enum `TaskType` (scheduler.py lines 15-19). -/
inductive TaskType
  | upload
  | download
  | delete
deriving DecidableEq

/-- The `.value` of a `TaskType` member. -/
def TaskType.value : TaskType → String
  | .upload => "upload"
  | .download => "download"
  | .delete => "delete"

/-- `TaskType(s)`: look up an enum member by value; raises (none) on an
unknown value. -/
def TaskType.ofValue (s : String) : Option TaskType :=
  if s = "upload" then some .upload
  else if s = "download" then some .download
  else if s = "delete" then some .delete
  else none

/-- Python enum `TaskStatus` (scheduler.py lines 22-28). -/
inductive TaskStatus
  | pending
  | running
  | completed
  | failed
  | cancelled
deriving DecidableEq

/-- The `.value` of a `TaskStatus` member. -/
def TaskStatus.value : TaskStatus → String
  | .pending => "pending"
  | .running => "running"
  | .completed => "completed"
  | .failed => "failed"
  | .cancelled => "cancelled"

/-- `TaskStatus(s)`: look up an enum member by value; raises (none) on an
unknown value. -/
def TaskStatus.ofValue (s : String) : Option TaskStatus :=
  if s = "pending" then some .pending
  else if s = "running" then some .running
  else if s = "completed" then some .completed
  else if s = "failed" then some .failed
  else if s = "cancelled" then some .cancelled
  else none

/-- The fields of class `ScheduledTask` (scheduler.py lines 31-60). -/
structure ScheduledTask where
  task_id : String
  task_type : TaskType
  source_path : String
  dest_path : String
  scheduled_time : Nat
  recurring : Bool
  interval_minutes : Nat
  status : TaskStatus
  last_run : Option Nat
  next_run : Option Nat
  error_message : String
deriving DecidableEq

/-- `ScheduledTask.__init__` (scheduler.py lines 34-60).  `scheduled_time`
defaults to `datetime.now()` when the caller passes `None`; `now` is that
clock reading. -/
def mkScheduledTask (task_id : String) (task_type : TaskType)
    (source_path : String) (dest_path : String)
    (scheduled_time : Option Nat) (now : Nat)
    (recurring : Bool) (interval_minutes : Nat) : ScheduledTask :=
  let sched := scheduled_time.getD now
  { task_id := task_id
    task_type := task_type
    source_path := source_path
    dest_path := dest_path
    scheduled_time := sched
    recurring := recurring
    interval_minutes := interval_minutes
    status := TaskStatus.pending
    last_run := none
    next_run := some sched
    error_message := "" }

/-- The dictionary produced by `ScheduledTask.to_dict` and consumed by
`ScheduledTask.from_dict`: one record of the persisted tasks file. -/
structure TaskDict where
  task_id : String
  task_type : String
  source_path : String
  dest_path : String
  scheduled_time : Nat
  recurring : Bool
  interval_minutes : Nat
  status : String
  last_run : Option Nat
  next_run : Option Nat
  error_message : String
deriving DecidableEq

/-- `ScheduledTask.to_dict` (scheduler.py lines 62-76). -/
def to_dict (t : ScheduledTask) : TaskDict :=
  { task_id := t.task_id
    task_type := t.task_type.value
    source_path := t.source_path
    dest_path := t.dest_path
    scheduled_time := t.scheduled_time
    recurring := t.recurring
    interval_minutes := t.interval_minutes
    status := t.status.value
    last_run := t.last_run
    next_run := t.next_run
    error_message := t.error_message }

/-- `ScheduledTask.from_dict` (scheduler.py lines 78-94).  The enum lookups
`TaskType(...)` and `TaskStatus(...)` raise on unknown values, so the whole
deserialization is fallible. -/
def from_dict (d : TaskDict) : Option ScheduledTask :=
  match TaskType.ofValue d.task_type, TaskStatus.ofValue d.status with
  | some ty, some st =>
      some { task_id := d.task_id
             task_type := ty
             source_path := d.source_path
             dest_path := d.dest_path
             scheduled_time := d.scheduled_time
             recurring := d.recurring
             interval_minutes := d.interval_minutes
             status := st
             last_run := d.last_run
             next_run := d.next_run
             error_message := d.error_message }
  | _, _ => none

/-! ### The in-memory store

`self.tasks : Dict[str, ScheduledTask]`, an insertion-ordered map. -/

/-- The in-memory task map, keyed by task id, in insertion order. -/
abbrev Store := List (String × ScheduledTask)

/-- `task_id in self.tasks`. -/
def containsKey (ts : Store) (k : String) : Bool :=
  ts.any (fun p => p.1 = k)

/-- `self.tasks.get(task_id)` — `TaskScheduler.get_task`
(scheduler.py lines 152-154). -/
def get_task (ts : Store) (k : String) : Option ScheduledTask :=
  match ts with
  | [] => none
  | (k', v) :: rest => if k' = k then some v else get_task rest k

/-- `self.tasks[k] = v`: overwrite in place when the key exists, append
otherwise (Python dict update semantics). -/
def dictInsert (ts : Store) (k : String) (v : ScheduledTask) : Store :=
  match ts with
  | [] => [(k, v)]
  | (k', v') :: rest =>
      if k' = k then (k, v) :: rest else (k', v') :: dictInsert rest k v

/-- `del self.tasks[k]` (keys are unique in a Python dict). -/
def dictRemove (ts : Store) (k : String) : Store :=
  ts.filter (fun p => p.1 ≠ k)

/-! ### Task execution

`TaskScheduler._execute_task` (scheduler.py lines 195-234).  The injected
executor `self.task_executor(task)` either returns a boolean or raises an
exception carrying a message; its observable behaviour is an `ExecResult`. -/

/-- Outcome of one call to the injected task executor: returned `True`,
returned `False`, or raised an exception with message `msg`. -/
inductive ExecResult
  | success
  | failed
  | raised (msg : String)
deriving DecidableEq

/-- The mutations `_execute_task` applies to the task after the executor
call returns or raises (scheduler.py lines 213-232), given the completion
time `tDone` (the `datetime.now()` of lines 215/219). -/
def applyOutcome (res : ExecResult) (tDone : Nat) (task : ScheduledTask) :
    ScheduledTask :=
  match res with
  | .success =>
      let t := { task with status := TaskStatus.completed, last_run := some tDone }
      if task.recurring ∧ 0 < task.interval_minutes then
        { t with next_run := some (tDone + 60 * task.interval_minutes)
                 status := TaskStatus.pending }
      else t
  | .failed =>
      { task with status := TaskStatus.failed
                  error_message := "Task execution failed" }
  | .raised msg =>
      { task with status := TaskStatus.failed, error_message := msg }

/-- `TaskScheduler._execute_task` with an executor set: the task is first
marked `RUNNING` (line 206), the executor is invoked on it, and the outcome
is applied.  (The trailing `save_tasks` swallows its own errors and does not
affect the in-memory task, see `save_tasks` below.) -/
def executeTask (executor : ScheduledTask → ExecResult) (tDone : Nat)
    (task : ScheduledTask) : ScheduledTask :=
  let running := { task with status := TaskStatus.running }
  applyOutcome (executor running) tDone running

/-- Eligibility test of `_check_and_execute_tasks` line 192:
`task.status == TaskStatus.PENDING and task.next_run <= now`, on tasks whose
`next_run` is present.  (When `next_run` is `None` on a pending task the
comparison raises instead; see `checkAndExecuteTasks`.) -/
def isDue (t : ScheduledTask) (now : Nat) : Bool :=
  decide (t.status = TaskStatus.pending) &&
    match t.next_run with
    | some nr => decide (nr ≤ now)
    | none => false

/-- `TaskScheduler._check_and_execute_tasks` (scheduler.py lines 187-193):
scan the store in iteration order with the time snapshot `now` taken once at
the start; execute each due pending task.  Comparing `None <= now` raises a
`TypeError`, which aborts the scan: tasks already executed keep their updates
(they were mutated in place), tasks at and after the raising entry are left
untouched.  Returns the updated store, the ids of the tasks that were
executed, and the propagated exception if any.  `tDone` is the completion
time the executions observe. -/
def checkAndExecuteTasks (executor : ScheduledTask → ExecResult)
    (now tDone : Nat) : Store → Store × List String × Option String
  | [] => ([], [], none)
  | (k, t) :: rest =>
      if t.status = TaskStatus.pending then
        match t.next_run with
        | none =>
            ((k, t) :: rest, [],
              some "TypeError: comparison of NoneType and datetime")
        | some nr =>
            if nr ≤ now then
              let t' := executeTask executor tDone t
              let r := checkAndExecuteTasks executor now tDone rest
              ((k, t') :: r.1, k :: r.2.1, r.2.2)
            else
              let r := checkAndExecuteTasks executor now tDone rest
              ((k, t) :: r.1, r.2.1, r.2.2)
      else
        let r := checkAndExecuteTasks executor now tDone rest
        ((k, t) :: r.1, r.2.1, r.2.2)

/-- One iteration of `TaskScheduler._scheduler_loop` (scheduler.py lines
178-185): run the scan and catch any exception it raises (the `except`
clause only logs), so the loop always proceeds to the next cycle with the
partially updated store. -/
def schedulerCycle (executor : ScheduledTask → ExecResult) (now tDone : Nat)
    (ts : Store) : Store :=
  (checkAndExecuteTasks executor now tDone ts).1

/-- Repeated loop iterations: one `(now, tDone)` clock pair per cycle. -/
def runCycles (executor : ScheduledTask → ExecResult) :
    List (Nat × Nat) → Store → Store
  | [], ts => ts
  | (now, tDone) :: rest, ts =>
      runCycles executor rest (schedulerCycle executor now tDone ts)

/-- All task ids selected for execution across a sequence of cycles. -/
def executedAcross (executor : ScheduledTask → ExecResult) :
    List (Nat × Nat) → Store → List String
  | [], _ => []
  | (now, tDone) :: rest, ts =>
      let r := checkAndExecuteTasks executor now tDone ts
      r.2.1 ++ executedAcross executor rest r.1

/-! ### Persistence and the facade

`TaskScheduler.save_tasks` / `load_tasks` / `add_task` / `remove_task`
(scheduler.py lines 124-150 and 236-261). -/

/-- The scheduler state visible to facade callers: the in-memory map and the
contents of the tasks file (`none` when the file does not exist). -/
structure SchedulerState where
  tasks : Store
  tasks_file : Option (List TaskDict)
deriving DecidableEq

/-- The body of `save_tasks` before exception handling: serialize every task
and write the file; an I/O failure (modelled by `writeOk = false`) raises. -/
def writeTasksFile (writeOk : Bool) (st : SchedulerState) :
    Except String (List TaskDict) :=
  if writeOk then Except.ok (st.tasks.map (fun p => to_dict p.2))
  else Except.error "IOError"

/-- `TaskScheduler.save_tasks` (scheduler.py lines 236-243): the write is
wrapped in `try/except`, so a failure is logged and swallowed — the state is
returned unchanged and nothing is raised to the caller. -/
def save_tasks (writeOk : Bool) (st : SchedulerState) : SchedulerState :=
  match writeTasksFile writeOk st with
  | Except.ok content => { st with tasks_file := some content }
  | Except.error _ => st

/-- `TaskScheduler.add_task` (scheduler.py lines 124-133).  The second
component is the exception propagated to the caller; every fallible step in
the body is caught inside `save_tasks`, so it is always `none`. -/
def add_task (writeOk : Bool) (st : SchedulerState) (task : ScheduledTask) :
    SchedulerState × Option String :=
  let st' := { st with tasks := dictInsert st.tasks task.task_id task }
  (save_tasks writeOk st', none)

/-- `TaskScheduler.remove_task` (scheduler.py lines 135-150): delete and
persist when the id is present (returning `true`), otherwise return `false`.
The last component is the exception propagated to the caller, always
`none`. -/
def remove_task (writeOk : Bool) (st : SchedulerState) (k : String) :
    SchedulerState × Bool × Option String :=
  if containsKey st.tasks k then
    let st' := { st with tasks := dictRemove st.tasks k }
    (save_tasks writeOk st', true, none)
  else (st, false, none)

/-- The tasks file as `load_tasks` finds it: absent, unreadable or not valid
JSON, or a well-formed JSON list of records. -/
inductive TasksFile
  | missing
  | corrupt
  | wellFormed (ds : List TaskDict)

/-- The record loop of `load_tasks` (scheduler.py lines 254-257), starting
from the freshly reset `self.tasks = {}`: records are deserialized and
inserted one by one; the first record whose `from_dict` raises aborts the
loop, leaving the records already inserted in place. -/
def loadRecords : List TaskDict → Store → Store × Option String
  | [], acc => (acc, none)
  | d :: rest, acc =>
      match from_dict d with
      | none => (acc, some "deserialization error")
      | some t => loadRecords rest (dictInsert acc t.task_id t)

/-- `TaskScheduler.load_tasks` (scheduler.py lines 245-261) applied to the
in-memory map `prev` it starts from.  A missing file returns early; a file
that fails `json.load` raises before `self.tasks = {}` executes, and the
exception is caught, leaving `prev`; otherwise the record loop runs and any
exception in it is caught, keeping whatever was inserted so far. -/
def load_tasks (prev : Store) : TasksFile → Store
  | TasksFile.missing => prev
  | TasksFile.corrupt => prev
  | TasksFile.wellFormed ds => (loadRecords ds []).1

/-- `TaskScheduler.__init__` (scheduler.py lines 100-113): `self.tasks = {}`
followed by `self.load_tasks()`. -/
def initScheduler (file : TasksFile) : Store :=
  load_tasks [] file

/-! ### Concrete sample data for witnesses and counterexamples -/

/-- A recurring upload task, due at time 10 with a 5 minute interval. -/
def sampleRecurring : ScheduledTask :=
  mkScheduledTask "a" TaskType.upload "/local/a.txt" "/remote/a.txt"
    (some 10) 0 true 5

/-- A non-recurring download task, due at time 20. -/
def sampleOneShot : ScheduledTask :=
  mkScheduledTask "b" TaskType.download "/remote/b.txt" "/local/b.txt"
    (some 20) 0 false 0

/-- A recurring task with a zero interval. -/
def sampleZeroInterval : ScheduledTask :=
  mkScheduledTask "z" TaskType.upload "/local/z.txt" "/remote/z.txt"
    (some 10) 0 true 0

/-- A pending task whose `next_run` is absent, as deserialized from a JSON
record with a null `next_run` marker. -/
def sampleNoNextRun : ScheduledTask :=
  { sampleRecurring with task_id := "c", next_run := none }

/-- A persisted record that `from_dict` rejects: its status string is not a
`TaskStatus` value. -/
def sampleBadRecord : TaskDict :=
  { to_dict sampleOneShot with status := "bogus" }

/-- A scheduler state with an empty store and an existing empty tasks
file. -/
def sampleEmptyState : SchedulerState :=
  { tasks := [], tasks_file := some [] }

/-- A scheduler state holding the one-shot sample task. -/
def sampleOneShotState : SchedulerState :=
  { tasks := [("b", sampleOneShot)], tasks_file := some [to_dict sampleOneShot] }

/-- An executor that always reports success. -/
def alwaysSucceeds : ScheduledTask → ExecResult := fun _ => ExecResult.success

/-- An executor that always reports failure by returning `False`. -/
def alwaysFails : ScheduledTask → ExecResult := fun _ => ExecResult.failed

/-- An executor that always raises, with the message "boom". -/
def alwaysRaises : ScheduledTask → ExecResult := fun _ => ExecResult.raised "boom"

/-! ### Helper lemmas: serialization -/

lemma taskType_ofValue_value (ty : TaskType) : TaskType.ofValue ty.value = some ty := by
  cases ty <;> rfl

lemma taskStatus_ofValue_value (st : TaskStatus) :
    TaskStatus.ofValue st.value = some st := by
  cases st <;> rfl

lemma from_dict_to_dict (t : ScheduledTask) : from_dict (to_dict t) = some t := by
  simp only [from_dict, to_dict, taskType_ofValue_value, taskStatus_ofValue_value]

/-! ### Helper lemmas: the dictionary model -/

lemma containsKey_iff_mem_keys (ts : Store) (k : String) :
    containsKey ts k = true ↔ k ∈ ts.map Prod.fst := by
  simp only [containsKey, List.any_eq_true, List.mem_map, decide_eq_true_eq]

lemma get_task_dictRemove_self (ts : Store) (k : String) :
    get_task (dictRemove ts k) k = none := by
  induction ts with
  | nil => rfl
  | cons p rest ih =>
      obtain ⟨k', v⟩ := p
      by_cases h : k' = k
      · simpa [dictRemove, h] using ih
      · simpa [dictRemove, get_task, h] using ih

lemma dictInsert_fresh (ts : Store) (k : String) (v : ScheduledTask)
    (h : k ∉ ts.map Prod.fst) : dictInsert ts k v = ts ++ [(k, v)] := by
  induction ts with
  | nil => rfl
  | cons p rest ih =>
      obtain ⟨k', v'⟩ := p
      simp only [List.map_cons, List.mem_cons, not_or] at h
      simp only [dictInsert, if_neg (Ne.symm h.1), List.cons_append, List.cons.injEq,
        true_and]
      exact ih h.2

lemma save_tasks_tasks (writeOk : Bool) (st : SchedulerState) :
    (save_tasks writeOk st).tasks = st.tasks := by
  cases writeOk <;> rfl

lemma save_tasks_file_of_fail (st : SchedulerState) :
    (save_tasks false st).tasks_file = st.tasks_file := rfl

/-! ### Helper lemmas: the due-task scan -/

lemma isDue_iff (t : ScheduledTask) (now : Nat) :
    isDue t now = true ↔
      t.status = TaskStatus.pending ∧ ∃ nr, t.next_run = some nr ∧ nr ≤ now := by
  cases hnr : t.next_run <;> simp [isDue, hnr]

lemma scan_keys (ex : ScheduledTask → ExecResult) (now td : Nat) (ts : Store) :
    (checkAndExecuteTasks ex now td ts).1.map Prod.fst = ts.map Prod.fst := by
  induction ts with
  | nil => rfl
  | cons p rest ih =>
      obtain ⟨k, t⟩ := p
      by_cases hp : t.status = TaskStatus.pending
      · cases hnr : t.next_run with
        | none => simp [checkAndExecuteTasks, hp, hnr]
        | some nr =>
            by_cases hle : nr ≤ now
            · simp [checkAndExecuteTasks, hp, hnr, hle, ih]
            · simp [checkAndExecuteTasks, hp, hnr, hle, ih]
      · simp [checkAndExecuteTasks, hp, ih]

lemma scan_mem_nonpending (ex : ScheduledTask → ExecResult) (now td : Nat)
    (ts : Store) (k : String) (t : ScheduledTask) (hmem : (k, t) ∈ ts)
    (hnp : t.status ≠ TaskStatus.pending) :
    (k, t) ∈ (checkAndExecuteTasks ex now td ts).1 := by
  induction ts with
  | nil => cases hmem
  | cons p rest ih =>
      obtain ⟨k', t'⟩ := p
      rcases List.mem_cons.mp hmem with heq | hmem'
      · obtain ⟨rfl, rfl⟩ := Prod.mk.injEq .. ▸ heq
        simp [checkAndExecuteTasks, hnp]
      · have hrec := ih hmem'
        by_cases hp : t'.status = TaskStatus.pending
        · cases hnr : t'.next_run with
          | none =>
              simp only [checkAndExecuteTasks, if_pos hp, hnr]
              exact List.mem_cons_of_mem _ hmem'
          | some nr =>
              by_cases hle : nr ≤ now
              · simp only [checkAndExecuteTasks, if_pos hp, hnr, if_pos hle]
                exact List.mem_cons_of_mem _ hrec
              · simp only [checkAndExecuteTasks, if_pos hp, hnr, if_neg hle]
                exact List.mem_cons_of_mem _ hrec
        · simp only [checkAndExecuteTasks, if_neg hp]
          exact List.mem_cons_of_mem _ hrec

lemma scan_executed_sub (ex : ScheduledTask → ExecResult) (now td : Nat)
    (ts : Store) (k : String)
    (hk : k ∈ (checkAndExecuteTasks ex now td ts).2.1) :
    ∃ t, (k, t) ∈ ts ∧ t.status = TaskStatus.pending := by
  induction ts with
  | nil => cases hk
  | cons p rest ih =>
      obtain ⟨k', t'⟩ := p
      by_cases hp : t'.status = TaskStatus.pending
      · cases hnr : t'.next_run with
        | none =>
            simp only [checkAndExecuteTasks, if_pos hp, hnr] at hk
            cases hk
        | some nr =>
            by_cases hle : nr ≤ now
            · simp only [checkAndExecuteTasks, if_pos hp, hnr, if_pos hle,
                List.mem_cons] at hk
              rcases hk with rfl | hk'
              · exact ⟨t', List.mem_cons_self _ _, hp⟩
              · obtain ⟨t, hmem, hpend⟩ := ih hk'
                exact ⟨t, List.mem_cons_of_mem _ hmem, hpend⟩
            · simp only [checkAndExecuteTasks, if_pos hp, hnr, if_neg hle] at hk
              obtain ⟨t, hmem, hpend⟩ := ih hk
              exact ⟨t, List.mem_cons_of_mem _ hmem, hpend⟩
      · simp only [checkAndExecuteTasks, if_neg hp] at hk
        obtain ⟨t, hmem, hpend⟩ := ih hk
        exact ⟨t, List.mem_cons_of_mem _ hmem, hpend⟩

lemma keys_nodup_unique (ts : Store) (hnd : (ts.map Prod.fst).Nodup)
    (k : String) (a b : ScheduledTask) (ha : (k, a) ∈ ts) (hb : (k, b) ∈ ts) :
    a = b := by
  induction ts with
  | nil => cases ha
  | cons p rest ih =>
      obtain ⟨k', t'⟩ := p
      simp only [List.map_cons, List.nodup_cons] at hnd
      rcases List.mem_cons.mp ha with haeq | ha' <;>
        rcases List.mem_cons.mp hb with hbeq | hb'
      · rw [Prod.mk.injEq] at haeq hbeq
        rw [haeq.2, hbeq.2]
      · rw [Prod.mk.injEq] at haeq
        exact absurd (haeq.1 ▸ List.mem_map_of_mem Prod.fst hb') hnd.1
      · rw [Prod.mk.injEq] at hbeq
        exact absurd (hbeq.1 ▸ List.mem_map_of_mem Prod.fst ha') hnd.1
      · exact ih hnd.2 ha' hb'

lemma scan_nonpending_not_executed (ex : ScheduledTask → ExecResult)
    (now td : Nat) (ts : Store) (hnd : (ts.map Prod.fst).Nodup)
    (k : String) (t : ScheduledTask) (hmem : (k, t) ∈ ts)
    (hnp : t.status ≠ TaskStatus.pending) :
    k ∉ (checkAndExecuteTasks ex now td ts).2.1 := by
  intro hk
  obtain ⟨t', ht', hpend⟩ := scan_executed_sub ex now td ts k hk
  exact hnp ((keys_nodup_unique ts hnd k t t' hmem ht') ▸ hpend)

lemma executedAcross_nonpending (ex : ScheduledTask → ExecResult)
    (cycles : List (Nat × Nat)) (ts : Store) (hnd : (ts.map Prod.fst).Nodup)
    (k : String) (t : ScheduledTask) (hmem : (k, t) ∈ ts)
    (hnp : t.status ≠ TaskStatus.pending) :
    k ∉ executedAcross ex cycles ts := by
  induction cycles generalizing ts with
  | nil => simp [executedAcross]
  | cons c rest ih =>
      obtain ⟨now, td⟩ := c
      simp only [executedAcross, List.mem_append, not_or]
      refine ⟨scan_nonpending_not_executed ex now td ts hnd k t hmem hnp, ?_⟩
      exact ih (checkAndExecuteTasks ex now td ts).1
        (by rw [scan_keys]; exact hnd)
        (scan_mem_nonpending ex now td ts k t hmem hnp)

lemma scan_eq_of_next_run_present (ex : ScheduledTask → ExecResult)
    (now td : Nat) (ts : Store)
    (h : ∀ p ∈ ts, p.2.status = TaskStatus.pending → p.2.next_run ≠ none) :
    checkAndExecuteTasks ex now td ts =
      (ts.map (fun p => (p.1, if isDue p.2 now then executeTask ex td p.2 else p.2)),
       (ts.filter (fun p => isDue p.2 now)).map Prod.fst,
       none) := by
  induction ts with
  | nil => rfl
  | cons p rest ih =>
      obtain ⟨k, t⟩ := p
      have hrest : ∀ p ∈ rest, p.2.status = TaskStatus.pending → p.2.next_run ≠ none :=
        fun p hp => h p (List.mem_cons_of_mem _ hp)
      by_cases hp : t.status = TaskStatus.pending
      · cases hnr : t.next_run with
        | none => exact absurd hnr (h (k, t) (List.mem_cons_self _ _) hp)
        | some nr =>
            by_cases hle : nr ≤ now
            · have hdue : isDue t now = true := by simp [isDue, hp, hnr, hle]
              simp [checkAndExecuteTasks, hp, hnr, hle, ih hrest, hdue]
            · have hdue : isDue t now = false := by simp [isDue, hp, hnr, hle]
              simp [checkAndExecuteTasks, hp, hnr, hle, ih hrest, hdue]
      · have hdue : isDue t now = false := by simp [isDue, hp]
        simp [checkAndExecuteTasks, hp, ih hrest, hdue]

lemma scan_abort (ex : ScheduledTask → ExecResult) (now td : Nat)
    (pre suf : Store) (k : String) (t : ScheduledTask)
    (hpre : ∀ p ∈ pre, p.2.status = TaskStatus.pending → p.2.next_run ≠ none)
    (ht : t.status = TaskStatus.pending) (hnr : t.next_run = none) :
    checkAndExecuteTasks ex now td (pre ++ (k, t) :: suf) =
      ((checkAndExecuteTasks ex now td pre).1 ++ (k, t) :: suf,
       (checkAndExecuteTasks ex now td pre).2.1,
       some "TypeError: comparison of NoneType and datetime") := by
  induction pre with
  | nil => simp [checkAndExecuteTasks, ht, hnr]
  | cons p rest ih =>
      obtain ⟨k₀, t₀⟩ := p
      have hrest : ∀ p ∈ rest, p.2.status = TaskStatus.pending → p.2.next_run ≠ none :=
        fun p hp => hpre p (List.mem_cons_of_mem _ hp)
      by_cases hp : t₀.status = TaskStatus.pending
      · cases hnr₀ : t₀.next_run with
        | none => exact absurd hnr₀ (hpre (k₀, t₀) (List.mem_cons_self _ _) hp)
        | some nr =>
            by_cases hle : nr ≤ now
            · simp [checkAndExecuteTasks, hp, hnr₀, hle, ih hrest]
            · simp [checkAndExecuteTasks, hp, hnr₀, hle, ih hrest]
      · simp [checkAndExecuteTasks, hp, ih hrest]

/-! ### Helper lemmas: loading records -/

lemma loadRecords_roundtrip (ts : Store) (acc : Store)
    (hk : ∀ p ∈ ts, p.1 = p.2.task_id)
    (hnd : ((acc ++ ts).map Prod.fst).Nodup) :
    loadRecords (ts.map (fun p => to_dict p.2)) acc = (acc ++ ts, none) := by
  induction ts generalizing acc with
  | nil => simp [loadRecords]
  | cons p rest ih =>
      obtain ⟨k, t⟩ := p
      have hkt : k = t.task_id := hk (k, t) (List.mem_cons_self _ _)
      have hfresh : k ∉ acc.map Prod.fst := by
        simp only [List.map_append, List.nodup_append, List.map_cons] at hnd
        intro hmem
        exact hnd.2.2 hmem (List.mem_cons_self _ _)
      have hins : dictInsert acc t.task_id t = acc ++ [(k, t)] := by
        rw [← hkt]
        exact dictInsert_fresh acc k t hfresh
      have hnd' : (((acc ++ [(k, t)]) ++ rest).map Prod.fst).Nodup := by
        rw [← List.append_cons]
        exact hnd
      have hkrest : ∀ p ∈ rest, p.1 = p.2.task_id :=
        fun p hp => hk p (List.mem_cons_of_mem _ hp)
      calc loadRecords (((k, t) :: rest).map (fun p => to_dict p.2)) acc
          = loadRecords (rest.map (fun p => to_dict p.2)) (dictInsert acc t.task_id t) := by
            simp [loadRecords, from_dict_to_dict]
        _ = ((acc ++ [(k, t)]) ++ rest, none) := by
            rw [hins]; exact ih (acc ++ [(k, t)]) hkrest hnd'
        _ = (acc ++ (k, t) :: rest, none) := by rw [← List.append_cons]

lemma loadRecords_append_of_ok (ds₁ ds₂ : List TaskDict) (acc : Store)
    (h : ∀ d ∈ ds₁, (from_dict d).isSome = true) :
    loadRecords (ds₁ ++ ds₂) acc = loadRecords ds₂ (loadRecords ds₁ acc).1 := by
  induction ds₁ generalizing acc with
  | nil => rfl
  | cons d rest ih =>
      obtain ⟨t, ht⟩ := Option.isSome_iff_exists.mp (h d (List.mem_cons_self _ _))
      have hrest : ∀ d ∈ rest, (from_dict d).isSome = true :=
        fun d hd => h d (List.mem_cons_of_mem _ hd)
      simp [loadRecords, ht, ih _ hrest]

lemma loadRecords_error_head (d : TaskDict) (ds : List TaskDict) (acc : Store)
    (h : from_dict d = none) :
    loadRecords (d :: ds) acc = (acc, some "deserialization error") := by
  simp [loadRecords, h]

/-! ### Helper lemmas: single-task execution -/

lemma executeTask_success_recurring (ex : ScheduledTask → ExecResult) (td : Nat)
    (t : ScheduledTask)
    (hx : ex { t with status := TaskStatus.running } = ExecResult.success)
    (hrec : t.recurring = true) (hm : 0 < t.interval_minutes) :
    (executeTask ex td t).status = TaskStatus.pending ∧
    (executeTask ex td t).next_run = some (td + 60 * t.interval_minutes) ∧
    (executeTask ex td t).last_run = some td := by
  simp only [executeTask]
  rw [hx]
  simp [applyOutcome, hrec, hm]

lemma executeTask_success_oneshot (ex : ScheduledTask → ExecResult) (td : Nat)
    (t : ScheduledTask)
    (hx : ex { t with status := TaskStatus.running } = ExecResult.success)
    (h : t.recurring = false ∨ t.interval_minutes = 0) :
    (executeTask ex td t).status = TaskStatus.completed ∧
    (executeTask ex td t).last_run = some td ∧
    (executeTask ex td t).next_run = t.next_run := by
  have hcond : ¬ (t.recurring = true ∧ 0 < t.interval_minutes) := by
    rcases h with h | h <;> simp [h]
  simp only [executeTask]
  rw [hx]
  simp [applyOutcome, hcond]

lemma executeTask_failed (ex : ScheduledTask → ExecResult) (td : Nat)
    (t : ScheduledTask)
    (hx : ex { t with status := TaskStatus.running } = ExecResult.failed) :
    (executeTask ex td t).status = TaskStatus.failed ∧
    (executeTask ex td t).error_message = "Task execution failed" ∧
    (executeTask ex td t).last_run = t.last_run ∧
    (executeTask ex td t).next_run = t.next_run := by
  simp only [executeTask]
  rw [hx]
  simp [applyOutcome]

lemma executeTask_raised (ex : ScheduledTask → ExecResult) (td : Nat)
    (t : ScheduledTask) (msg : String)
    (hx : ex { t with status := TaskStatus.running } = ExecResult.raised msg) :
    (executeTask ex td t).status = TaskStatus.failed ∧
    (executeTask ex td t).error_message = msg ∧
    (executeTask ex td t).last_run = t.last_run ∧
    (executeTask ex td t).next_run = t.next_run := by
  simp only [executeTask]
  rw [hx]
  simp [applyOutcome]

/-! ### Claim theorems -/

/-- C1: in each scheduler cycle, a task in the store with status Pending is
selected for execution iff its nextRun is at most the time snapshotted at the
start of the scan, and a task with any other status is never selected
regardless of its nextRun.  (Stated for stores whose pending tasks carry a
nextRun, the shape every constructed task has; a pending task without one
makes the comparison raise instead, see claim C10.) -/
theorem due_selection_correct (ex : ScheduledTask → ExecResult) (now td : Nat)
    (ts : Store)
    (h : ∀ p ∈ ts, p.2.status = TaskStatus.pending → p.2.next_run ≠ none) :
    (∀ k : String,
        k ∈ (checkAndExecuteTasks ex now td ts).2.1 ↔
          ∃ t, (k, t) ∈ ts ∧ t.status = TaskStatus.pending ∧
            ∃ nr, t.next_run = some nr ∧ nr ≤ now) ∧
    (∀ k t, (k, t) ∈ ts → t.status ≠ TaskStatus.pending →
        (ts.map Prod.fst).Nodup →
        k ∉ (checkAndExecuteTasks ex now td ts).2.1) := by
  constructor
  · intro k
    rw [scan_eq_of_next_run_present ex now td ts h]
    simp only [List.mem_map]
    constructor
    · rintro ⟨p, hpf, rfl⟩
      rw [List.mem_filter] at hpf
      obtain ⟨hpend, nr, hnr, hle⟩ := (isDue_iff p.2 now).mp hpf.2
      exact ⟨p.2, Prod.mk.eta ▸ hpf.1, hpend, nr, hnr, hle⟩
    · rintro ⟨t, hmem, hpend, nr, hnr, hle⟩
      refine ⟨(k, t), List.mem_filter.mpr ⟨hmem, ?_⟩, rfl⟩
      exact (isDue_iff t now).mpr ⟨hpend, nr, hnr, hle⟩
  · intro k t hmem hnp hnd
    exact scan_nonpending_not_executed ex now td ts hnd k t hmem hnp

/-- Witness for C1 at a concrete store: at snapshot time 15 the pending task
"a" (nextRun 10) is selected and the pending task "b" (nextRun 20) is not;
a completed task is never selected. -/
theorem due_selection_correct_witness :
    (∀ p ∈ ([("a", sampleRecurring), ("b", sampleOneShot)] : Store),
        p.2.status = TaskStatus.pending → p.2.next_run ≠ none) ∧
    ((∀ k : String,
        k ∈ (checkAndExecuteTasks alwaysSucceeds 15 100
              [("a", sampleRecurring), ("b", sampleOneShot)]).2.1 ↔
          ∃ t, (k, t) ∈ ([("a", sampleRecurring), ("b", sampleOneShot)] : Store) ∧
            t.status = TaskStatus.pending ∧
            ∃ nr, t.next_run = some nr ∧ nr ≤ 15) ∧
    (∀ k t, (k, t) ∈ ([("a", sampleRecurring), ("b", sampleOneShot)] : Store) →
        t.status ≠ TaskStatus.pending →
        ((([("a", sampleRecurring), ("b", sampleOneShot)] : Store)).map Prod.fst).Nodup →
        k ∉ (checkAndExecuteTasks alwaysSucceeds 15 100
              [("a", sampleRecurring), ("b", sampleOneShot)]).2.1)) :=
  ⟨by decide, due_selection_correct alwaysSucceeds 15 100
      [("a", sampleRecurring), ("b", sampleOneShot)] (by decide)⟩

/-- C2 counterexample: a recurring task whose interval is zero minutes is
reported successful, yet its status becomes Completed rather than Pending —
the success branch reschedules only when `recurring and interval_minutes > 0`
(scheduler.py line 218), so the claim fails as stated for every recurring
task. -/
theorem recurrence_claim_counterexample :
    sampleZeroInterval.recurring = true ∧
    alwaysSucceeds { sampleZeroInterval with status := TaskStatus.running } =
      ExecResult.success ∧
    ¬ (executeTask alwaysSucceeds 100 sampleZeroInterval).status = TaskStatus.pending ∧
    (executeTask alwaysSucceeds 100 sampleZeroInterval).status = TaskStatus.completed := by
  decide

/-- C2 (amended): for every recurring task with a positive intervalMinutes
that the executor reports as successful at completion time T, the updated
status is Pending and nextRun is T plus intervalMinutes minutes; a task that
is non-recurring, or recurring with intervalMinutes zero, instead becomes
Completed on success and is never selected again in any later cycle. -/
theorem recurrence_on_success (ex : ScheduledTask → ExecResult) (td : Nat)
    (t : ScheduledTask)
    (hx : ex { t with status := TaskStatus.running } = ExecResult.success) :
    (t.recurring = true → 0 < t.interval_minutes →
       (executeTask ex td t).status = TaskStatus.pending ∧
       (executeTask ex td t).next_run = some (td + 60 * t.interval_minutes)) ∧
    ((t.recurring = false ∨ t.interval_minutes = 0) →
       (executeTask ex td t).status = TaskStatus.completed ∧
       ∀ (ex' : ScheduledTask → ExecResult) (cycles : List (Nat × Nat))
         (ts : Store) (k : String),
         (ts.map Prod.fst).Nodup → (k, executeTask ex td t) ∈ ts →
         k ∉ executedAcross ex' cycles ts) := by
  constructor
  · intro hrec hm
    obtain ⟨h1, h2, _⟩ := executeTask_success_recurring ex td t hx hrec hm
    exact ⟨h1, h2⟩
  · intro hcase
    obtain ⟨h1, _, _⟩ := executeTask_success_oneshot ex td t hx hcase
    refine ⟨h1, ?_⟩
    intro ex' cycles ts k hnd hmem
    exact executedAcross_nonpending ex' cycles ts hnd k (executeTask ex td t) hmem
      (by rw [h1]; intro hcontra; cases hcontra)

/-- Witness for C2 at concrete tasks: the recurring 5-minute task "a"
succeeding at time 100 is rescheduled to 400 and pends again; the
non-recurring task "b" is completed. -/
theorem recurrence_on_success_witness :
    alwaysSucceeds { sampleRecurring with status := TaskStatus.running } =
      ExecResult.success ∧
    (sampleRecurring.recurring = true → 0 < sampleRecurring.interval_minutes →
       (executeTask alwaysSucceeds 100 sampleRecurring).status = TaskStatus.pending ∧
       (executeTask alwaysSucceeds 100 sampleRecurring).next_run =
         some (100 + 60 * sampleRecurring.interval_minutes)) ∧
    ((sampleOneShot.recurring = false ∨ sampleOneShot.interval_minutes = 0) →
       (executeTask alwaysSucceeds 100 sampleOneShot).status = TaskStatus.completed ∧
       ∀ (ex' : ScheduledTask → ExecResult) (cycles : List (Nat × Nat))
         (ts : Store) (k : String),
         (ts.map Prod.fst).Nodup → (k, executeTask alwaysSucceeds 100 sampleOneShot) ∈ ts →
         k ∉ executedAcross ex' cycles ts) :=
  ⟨rfl,
   (recurrence_on_success alwaysSucceeds 100 sampleRecurring rfl).1,
   (recurrence_on_success alwaysSucceeds 100 sampleOneShot rfl).2⟩

/-- C3: a recurring task whose execution fails — the executor returns false
or raises — ends with status Failed and its nextRun unchanged from the
pre-execution value, and while that status persists the task is not selected
in any subsequent cycle. -/
theorem failure_no_advance (ex : ScheduledTask → ExecResult) (td : Nat)
    (t : ScheduledTask) (_hrec : t.recurring = true)
    (hx : ex { t with status := TaskStatus.running } = ExecResult.failed ∨
          ∃ msg, ex { t with status := TaskStatus.running } = ExecResult.raised msg) :
    (executeTask ex td t).status = TaskStatus.failed ∧
    (executeTask ex td t).next_run = t.next_run ∧
    ∀ (ex' : ScheduledTask → ExecResult) (cycles : List (Nat × Nat))
      (ts : Store) (k : String),
      (ts.map Prod.fst).Nodup → (k, executeTask ex td t) ∈ ts →
      k ∉ executedAcross ex' cycles ts := by
  have hmain : (executeTask ex td t).status = TaskStatus.failed ∧
      (executeTask ex td t).next_run = t.next_run := by
    rcases hx with hx | ⟨msg, hx⟩
    · obtain ⟨h1, _, _, h4⟩ := executeTask_failed ex td t hx
      exact ⟨h1, h4⟩
    · obtain ⟨h1, _, _, h4⟩ := executeTask_raised ex td t msg hx
      exact ⟨h1, h4⟩
  refine ⟨hmain.1, hmain.2, ?_⟩
  intro ex' cycles ts k hnd hmem
  exact executedAcross_nonpending ex' cycles ts hnd k (executeTask ex td t) hmem
    (by rw [hmain.1]; intro hcontra; cases hcontra)

/-- Witness for C3: the recurring task "a", failing at time 100 with the
executor returning false, is Failed with nextRun still 10. -/
theorem failure_no_advance_witness :
    sampleRecurring.recurring = true ∧
    alwaysFails { sampleRecurring with status := TaskStatus.running } =
      ExecResult.failed ∧
    ((executeTask alwaysFails 100 sampleRecurring).status = TaskStatus.failed ∧
     (executeTask alwaysFails 100 sampleRecurring).next_run = sampleRecurring.next_run ∧
     ∀ (ex' : ScheduledTask → ExecResult) (cycles : List (Nat × Nat))
       (ts : Store) (k : String),
       (ts.map Prod.fst).Nodup → (k, executeTask alwaysFails 100 sampleRecurring) ∈ ts →
       k ∉ executedAcross ex' cycles ts) :=
  ⟨rfl, rfl,
   failure_no_advance alwaysFails 100 sampleRecurring rfl (Or.inl rfl)⟩

/-- C4 counterexample: when the executor merely returns false with no
detail, the code stores the fixed string "Task execution failed" in
errorMessage (scheduler.py line 226), not the empty string the claim
demands. -/
theorem failure_message_counterexample :
    alwaysFails { sampleRecurring with status := TaskStatus.running } =
      ExecResult.failed ∧
    (executeTask alwaysFails 0 sampleRecurring).error_message =
      "Task execution failed" ∧
    ¬ (executeTask alwaysFails 0 sampleRecurring).error_message = "" := by
  decide

/-- C4 (amended): for every task whose executor invocation fails, the
scheduler sets status Failed and sets errorMessage to the failure detail —
the exception message when the executor raises, and the fixed string
"Task execution failed" when the executor merely returned false — and the
failure never propagates out of the scheduler loop: the scan raises nothing
on executor failure, and one loop iteration is exactly the scan result with
any error discarded. -/
theorem execution_failure_handling (ex : ScheduledTask → ExecResult)
    (td : Nat) (t : ScheduledTask) :
    (∀ msg, ex { t with status := TaskStatus.running } = ExecResult.raised msg →
       (executeTask ex td t).status = TaskStatus.failed ∧
       (executeTask ex td t).error_message = msg) ∧
    (ex { t with status := TaskStatus.running } = ExecResult.failed →
       (executeTask ex td t).status = TaskStatus.failed ∧
       (executeTask ex td t).error_message = "Task execution failed") ∧
    (∀ (now : Nat) (ts : Store),
       (∀ p ∈ ts, p.2.status = TaskStatus.pending → p.2.next_run ≠ none) →
       (checkAndExecuteTasks ex now td ts).2.2 = none ∧
       schedulerCycle ex now td ts = (checkAndExecuteTasks ex now td ts).1) := by
  refine ⟨?_, ?_, ?_⟩
  · intro msg hx
    obtain ⟨h1, h2, _⟩ := executeTask_raised ex td t msg hx
    exact ⟨h1, h2⟩
  · intro hx
    obtain ⟨h1, h2, _⟩ := executeTask_failed ex td t hx
    exact ⟨h1, h2⟩
  · intro now ts h
    refine ⟨?_, rfl⟩
    rw [scan_eq_of_next_run_present ex now td ts h]

/-- Witness for C4: the raising executor yields status Failed with message
"boom" on the recurring task; scanning a one-task store with it raises
nothing. -/
theorem execution_failure_handling_witness :
    alwaysRaises { sampleRecurring with status := TaskStatus.running } =
      ExecResult.raised "boom" ∧
    (∀ p ∈ ([("a", sampleRecurring)] : Store),
        p.2.status = TaskStatus.pending → p.2.next_run ≠ none) ∧
    ((executeTask alwaysRaises 100 sampleRecurring).status = TaskStatus.failed ∧
     (executeTask alwaysRaises 100 sampleRecurring).error_message = "boom") ∧
    ((checkAndExecuteTasks alwaysRaises 50 100 [("a", sampleRecurring)]).2.2 = none ∧
     schedulerCycle alwaysRaises 50 100 [("a", sampleRecurring)] =
       (checkAndExecuteTasks alwaysRaises 50 100 [("a", sampleRecurring)]).1) :=
  ⟨rfl, by decide,
   (execution_failure_handling alwaysRaises 100 sampleRecurring).1 "boom" rfl,
   (execution_failure_handling alwaysRaises 100 sampleRecurring).2.2 50
     [("a", sampleRecurring)] (by decide)⟩

/-- C5 counterexample: a task whose attempt fails at completion time 5 keeps
lastRun absent — only the success branch assigns `task.last_run`
(scheduler.py line 215); the failure branches (lines 224-232) never touch
it, so lastRun is not updated in the failure outcome as the claim states. -/
theorem lastRun_claim_counterexample :
    sampleRecurring.last_run = none ∧
    alwaysFails { sampleRecurring with status := TaskStatus.running } =
      ExecResult.failed ∧
    (executeTask alwaysFails 5 sampleRecurring).status = TaskStatus.failed ∧
    (executeTask alwaysFails 5 sampleRecurring).last_run = none := by
  decide

/-- C5 (amended): lastRun is absent on every newly constructed task and is
set to the attempt completion time only when the attempt succeeds; a failing
attempt — executor returning false or raising — leaves lastRun unchanged. -/
theorem lastRun_success_only (tid : String) (ty : TaskType) (sp dp : String)
    (sched : Option Nat) (now : Nat) (recur : Bool) (m : Nat)
    (ex : ScheduledTask → ExecResult) (td : Nat) (t : ScheduledTask) :
    (mkScheduledTask tid ty sp dp sched now recur m).last_run = none ∧
    (ex { t with status := TaskStatus.running } = ExecResult.success →
       (executeTask ex td t).last_run = some td) ∧
    (ex { t with status := TaskStatus.running } = ExecResult.failed →
       (executeTask ex td t).last_run = t.last_run) ∧
    (∀ msg, ex { t with status := TaskStatus.running } = ExecResult.raised msg →
       (executeTask ex td t).last_run = t.last_run) := by
  refine ⟨rfl, ?_, ?_, ?_⟩
  · intro hx
    by_cases hc : t.recurring = true ∧ 0 < t.interval_minutes
    · exact (executeTask_success_recurring ex td t hx hc.1 hc.2).2.2
    · have h : t.recurring = false ∨ t.interval_minutes = 0 := by
        by_cases hb : t.recurring = true
        · refine Or.inr ?_
          rcases Nat.eq_zero_or_pos t.interval_minutes with hm | hm
          · exact hm
          · exact absurd ⟨hb, hm⟩ hc
        · refine Or.inl ?_
          cases hB : t.recurring
          · rfl
          · exact absurd hB hb
      exact (executeTask_success_oneshot ex td t hx h).2.1
  · intro hx
    exact (executeTask_failed ex td t hx).2.2.1
  · intro msg hx
    exact (executeTask_raised ex td t msg hx).2.2.1

/-- Witness for C5: a freshly constructed task has no lastRun; success at
time 100 sets it to 100; failure and raising leave it absent. -/
theorem lastRun_success_only_witness :
    (mkScheduledTask "w" TaskType.delete "/tmp/w" "" (some 3) 0 false 0).last_run =
      none ∧
    (alwaysSucceeds { sampleOneShot with status := TaskStatus.running } =
       ExecResult.success →
     (executeTask alwaysSucceeds 100 sampleOneShot).last_run = some 100) ∧
    (alwaysSucceeds { sampleOneShot with status := TaskStatus.running } =
       ExecResult.failed →
     (executeTask alwaysSucceeds 100 sampleOneShot).last_run =
       sampleOneShot.last_run) ∧
    (∀ msg, alwaysSucceeds { sampleOneShot with status := TaskStatus.running } =
       ExecResult.raised msg →
     (executeTask alwaysSucceeds 100 sampleOneShot).last_run =
       sampleOneShot.last_run) :=
  lastRun_success_only "w" TaskType.delete "/tmp/w" "" (some 3) 0 false 0
    alwaysSucceeds 100 sampleOneShot

/-- C6: round-trip persistence — deserializing the serialized form of any
task reproduces it exactly (ids, kinds, paths, flags, intervals, statuses,
error messages, timestamps, with absent lastRun/nextRun staying absent), and
persisting any store and loading the file into a fresh scheduler reproduces
the same set of tasks (keys being the task ids and unique, as the facade
maintains). -/
theorem round_trip_persistence :
    (∀ t : ScheduledTask, from_dict (to_dict t) = some t) ∧
    (∀ ts : Store, (∀ p ∈ ts, p.1 = p.2.task_id) → (ts.map Prod.fst).Nodup →
       initScheduler (TasksFile.wellFormed (ts.map (fun p => to_dict p.2))) = ts) := by
  refine ⟨from_dict_to_dict, ?_⟩
  intro ts hk hnd
  show load_tasks [] (TasksFile.wellFormed (ts.map (fun p => to_dict p.2))) = ts
  show (loadRecords (ts.map (fun p => to_dict p.2)) []).1 = ts
  rw [loadRecords_roundtrip ts [] hk (by simpa using hnd)]
  rfl

/-- Witness for C6: a two-task store survives persist plus fresh load. -/
theorem round_trip_persistence_witness :
    (∀ p ∈ ([("a", sampleRecurring), ("b", sampleOneShot)] : Store),
        p.1 = p.2.task_id) ∧
    ((([("a", sampleRecurring), ("b", sampleOneShot)] : Store).map Prod.fst).Nodup) ∧
    from_dict (to_dict sampleNoNextRun) = some sampleNoNextRun ∧
    initScheduler (TasksFile.wellFormed
        (([("a", sampleRecurring), ("b", sampleOneShot)] : Store).map
          (fun p => to_dict p.2))) =
      [("a", sampleRecurring), ("b", sampleOneShot)] :=
  ⟨by decide, by decide,
   round_trip_persistence.1 sampleNoNextRun,
   round_trip_persistence.2 [("a", sampleRecurring), ("b", sampleOneShot)]
     (by decide) (by decide)⟩

/-- C7: removing an id not present in the store returns false and leaves the
whole scheduler state unchanged; removing a present id returns true and a
subsequent get of that id returns absent. -/
theorem idempotent_removal (writeOk : Bool) (st : SchedulerState) (k : String) :
    (containsKey st.tasks k = false →
       remove_task writeOk st k = (st, false, none)) ∧
    (containsKey st.tasks k = true →
       (remove_task writeOk st k).2.1 = true ∧
       get_task (remove_task writeOk st k).1.tasks k = none) := by
  constructor
  · intro h
    simp [remove_task, h]
  · intro h
    refine ⟨by simp [remove_task, h], ?_⟩
    simp only [remove_task, h, if_true]
    rw [save_tasks_tasks]
    exact get_task_dictRemove_self st.tasks k

/-- Witness for C7: removing the absent id "x" from the one-task store is a
no-op returning false; removing the present id "b" returns true and the id
is gone. -/
theorem idempotent_removal_witness :
    containsKey sampleOneShotState.tasks "x" = false ∧
    containsKey sampleOneShotState.tasks "b" = true ∧
    remove_task true sampleOneShotState "x" = (sampleOneShotState, false, none) ∧
    ((remove_task true sampleOneShotState "b").2.1 = true ∧
     get_task (remove_task true sampleOneShotState "b").1.tasks "b" = none) :=
  ⟨by decide, by decide,
   (idempotent_removal true sampleOneShotState "x").1 (by decide),
   (idempotent_removal true sampleOneShotState "b").2 (by decide)⟩

/-- C8 counterexample: a tasks file whose second record cannot be
deserialized yields a store still holding the first record — `load_tasks`
resets `self.tasks` and inserts record by record, and the exception from the
bad record is caught only after the good one is already in (scheduler.py
lines 254-261), so the resulting store is a partially loaded set, not
empty. -/
theorem load_failure_counterexample :
    from_dict sampleBadRecord = none ∧
    initScheduler (TasksFile.wellFormed [to_dict sampleRecurring, sampleBadRecord]) =
      [("a", sampleRecurring)] ∧
    ¬ initScheduler (TasksFile.wellFormed [to_dict sampleRecurring, sampleBadRecord]) =
      [] := by
  decide

/-- C8 (amended): at construction a missing tasks file yields an empty store
with no error, a file that fails JSON parsing yields an empty store, and a
file whose very first record cannot be deserialized yields an empty store;
but a bad record later in the file aborts loading at that record, keeping
exactly the records loaded before it — a partially loaded set is possible. -/
theorem load_failure_prefix :
    initScheduler TasksFile.missing = [] ∧
    initScheduler TasksFile.corrupt = [] ∧
    (∀ (d : TaskDict) (ds : List TaskDict), from_dict d = none →
       initScheduler (TasksFile.wellFormed (d :: ds)) = []) ∧
    (∀ (ds₁ : List TaskDict) (d : TaskDict) (ds₂ : List TaskDict),
       (∀ d' ∈ ds₁, (from_dict d').isSome = true) → from_dict d = none →
       initScheduler (TasksFile.wellFormed (ds₁ ++ d :: ds₂)) =
         (loadRecords ds₁ []).1) := by
  refine ⟨rfl, rfl, ?_, ?_⟩
  · intro d ds hd
    show (loadRecords (d :: ds) []).1 = []
    rw [loadRecords_error_head d ds [] hd]
  · intro ds₁ d ds₂ h hd
    show (loadRecords (ds₁ ++ d :: ds₂) []).1 = (loadRecords ds₁ []).1
    rw [loadRecords_append_of_ok ds₁ (d :: ds₂) [] h,
       loadRecords_error_head d ds₂ (loadRecords ds₁ []).1 hd]

/-- Witness for C8: the bad record aborts a three-record file after its
first record, and an immediately bad record yields the empty store. -/
theorem load_failure_prefix_witness :
    (∀ d' ∈ [to_dict sampleRecurring], (from_dict d').isSome = true) ∧
    from_dict sampleBadRecord = none ∧
    initScheduler (TasksFile.wellFormed [sampleBadRecord, to_dict sampleOneShot]) = [] ∧
    initScheduler (TasksFile.wellFormed
        ([to_dict sampleRecurring] ++ sampleBadRecord :: [to_dict sampleOneShot])) =
      (loadRecords [to_dict sampleRecurring] []).1 :=
  ⟨by decide, by decide,
   load_failure_prefix.2.2.1 sampleBadRecord [to_dict sampleOneShot] (by decide),
   load_failure_prefix.2.2.2 [to_dict sampleRecurring] sampleBadRecord
     [to_dict sampleOneShot] (by decide) (by decide)⟩

/-- C9 counterexample: adding a task while the store file write fails
returns normally to the caller — no exception and no failure result — with
the in-memory map updated and the persisted file silently left unchanged;
`save_tasks` catches and logs every write error (scheduler.py lines
242-243), so nothing propagates to the `add_task` caller. -/
theorem facade_error_counterexample :
    (add_task false sampleEmptyState sampleOneShot).2 = none ∧
    (add_task false sampleEmptyState sampleOneShot).1.tasks =
      [("b", sampleOneShot)] ∧
    (add_task false sampleEmptyState sampleOneShot).1.tasks_file = some [] := by
  decide

/-- C9 (amended): a failing store-file write during add or remove is caught
and logged inside save_tasks and never surfaces to the caller: both
operations complete normally with no exception, the in-memory update is
applied, remove still reports presence, and the only observable effect of
the failure is that the persisted file is left unchanged. -/
theorem facade_swallows_save_errors (writeOk : Bool) (st : SchedulerState)
    (t : ScheduledTask) (k : String) :
    (add_task writeOk st t).2 = none ∧
    (add_task false st t).1.tasks = dictInsert st.tasks t.task_id t ∧
    (add_task false st t).1.tasks_file = st.tasks_file ∧
    (remove_task writeOk st k).2.2 = none ∧
    (containsKey st.tasks k = true →
       (remove_task false st k).1.tasks = dictRemove st.tasks k ∧
       (remove_task false st k).1.tasks_file = st.tasks_file) := by
  refine ⟨rfl, rfl, rfl, ?_, ?_⟩
  · by_cases h : containsKey st.tasks k <;> simp [remove_task, h]
  · intro h
    refine ⟨?_, ?_⟩ <;> simp [remove_task, h, save_tasks, writeTasksFile]

/-- Witness for C9 (amended): concrete instance on the one-task store with a
failing write. -/
theorem facade_swallows_save_errors_witness :
    containsKey sampleOneShotState.tasks "b" = true ∧
    ((add_task false sampleOneShotState sampleRecurring).2 = none ∧
     (add_task false sampleOneShotState sampleRecurring).1.tasks =
       dictInsert sampleOneShotState.tasks sampleRecurring.task_id sampleRecurring ∧
     (add_task false sampleOneShotState sampleRecurring).1.tasks_file =
       sampleOneShotState.tasks_file ∧
     (remove_task false sampleOneShotState "b").2.2 = none ∧
     (containsKey sampleOneShotState.tasks "b" = true →
        (remove_task false sampleOneShotState "b").1.tasks =
          dictRemove sampleOneShotState.tasks "b" ∧
        (remove_task false sampleOneShotState "b").1.tasks_file =
          sampleOneShotState.tasks_file)) :=
  ⟨by decide,
   facade_swallows_save_errors false sampleOneShotState sampleRecurring "b"⟩

/-- C10: scanning a store containing a Pending task whose nextRun is absent
raises at the due-check comparison, aborting the scan — tasks before it in
iteration order proceed normally, the absent-nextRun task itself is never
executed, no task after it is executed that cycle — and the scheduler loop
catches the error and proceeds to the next cycle with the partially updated
store. -/
theorem absent_nextRun_aborts_scan (ex : ScheduledTask → ExecResult)
    (now td : Nat) (pre suf : Store) (k : String) (t : ScheduledTask)
    (hpre : ∀ p ∈ pre, p.2.status = TaskStatus.pending → p.2.next_run ≠ none)
    (ht : t.status = TaskStatus.pending) (hnr : t.next_run = none)
    (hk : k ∉ pre.map Prod.fst) :
    checkAndExecuteTasks ex now td (pre ++ (k, t) :: suf) =
      ((checkAndExecuteTasks ex now td pre).1 ++ (k, t) :: suf,
       (checkAndExecuteTasks ex now td pre).2.1,
       some "TypeError: comparison of NoneType and datetime") ∧
    k ∉ (checkAndExecuteTasks ex now td (pre ++ (k, t) :: suf)).2.1 ∧
    (∀ more : List (Nat × Nat),
       runCycles ex ((now, td) :: more) (pre ++ (k, t) :: suf) =
         runCycles ex more ((checkAndExecuteTasks ex now td pre).1 ++ (k, t) :: suf)) := by
  have habort := scan_abort ex now td pre suf k t hpre ht hnr
  refine ⟨habort, ?_, ?_⟩
  · rw [habort]
    intro hkmem
    obtain ⟨t', ht', _⟩ := scan_executed_sub ex now td pre k hkmem
    exact hk (List.mem_map_of_mem Prod.fst ht')
  · intro more
    show runCycles ex more (schedulerCycle ex now td (pre ++ (k, t) :: suf)) = _
    rw [schedulerCycle, habort]

/-- Witness for C10: the store [a(due), c(pending, no nextRun), b(due)]
scanned at time 50 executes only "a", raises at "c", leaves "c" and "b"
untouched, and the loop carries the partial store into the next cycle. -/
theorem absent_nextRun_aborts_scan_witness :
    (∀ p ∈ ([("a", sampleRecurring)] : Store),
        p.2.status = TaskStatus.pending → p.2.next_run ≠ none) ∧
    sampleNoNextRun.status = TaskStatus.pending ∧
    sampleNoNextRun.next_run = none ∧
    ¬ "c" ∈ ([("a", sampleRecurring)] : Store).map Prod.fst ∧
    (checkAndExecuteTasks alwaysSucceeds 50 100
        ([("a", sampleRecurring)] ++ ("c", sampleNoNextRun) :: [("b", sampleOneShot)]) =
      ((checkAndExecuteTasks alwaysSucceeds 50 100 [("a", sampleRecurring)]).1 ++
         ("c", sampleNoNextRun) :: [("b", sampleOneShot)],
       (checkAndExecuteTasks alwaysSucceeds 50 100 [("a", sampleRecurring)]).2.1,
       some "TypeError: comparison of NoneType and datetime") ∧
     ¬ "c" ∈ (checkAndExecuteTasks alwaysSucceeds 50 100
        ([("a", sampleRecurring)] ++ ("c", sampleNoNextRun) :: [("b", sampleOneShot)])).2.1 ∧
     (∀ more : List (Nat × Nat),
        runCycles alwaysSucceeds ((50, 100) :: more)
            ([("a", sampleRecurring)] ++ ("c", sampleNoNextRun) :: [("b", sampleOneShot)]) =
          runCycles alwaysSucceeds more
            ((checkAndExecuteTasks alwaysSucceeds 50 100 [("a", sampleRecurring)]).1 ++
               ("c", sampleNoNextRun) :: [("b", sampleOneShot)]))) :=
  ⟨by decide, by decide, by decide, by decide,
   absent_nextRun_aborts_scan alwaysSucceeds 50 100 [("a", sampleRecurring)]
     [("b", sampleOneShot)] "c" sampleNoNextRun (by decide) (by decide)
     (by decide) (by decide)⟩

end WinscpScheduler
